import Mathlib

/-!  Shallow embedding of the fosscord-server registration core.

Source files embedded:
* `src/api/src/routes/auth/register.ts` — the `POST /auth/register` route handler
  and the exported `adjustEmail` function.
* `src/unnamed/part_000` — the `User` entity and its static `User.register` method.

Strings are modelled as `List Char`.  Database tables are modelled as lists of
rows; the route handler's queries observe one snapshot (`db`) and the final
save observes a possibly different snapshot (`dbSave`), which models concurrent
registrations committing between the handler's reads and its write.
-/

/-- Modelled from the spec: predicate for control/format characters (the
`trimSpecial` helper is imported from the util package, which is absent from
`src/`; the spec describes it as stripping backspace, newline and other
non-printing Unicode control points). -/
def isControlChar (c : Char) : Bool :=
  c.toNat < 32 || (127 ≤ c.toNat && c.toNat ≤ 159)

/-- Modelled from the spec: `trimSpecial` strips control/format characters
without altering visible characters. -/
def trimSpecial (s : List Char) : List Char :=
  s.filter (fun c => !isControlChar c)

/-- Modelled from the spec: a character admissible inside a dot-atom segment of
the local part of an email address (`EMAIL_REGEX` lives in
`api/src/util/instanceOf.ts`, which is absent from `src/`; the negated character
class excludes angle brackets, parentheses, square brackets, backslash, dot,
comma, semicolon, colon, whitespace, `@` and double quote — note that `+` is
admissible). -/
def isLocalChar (c : Char) : Bool :=
  !(['<', '>', '(', ')', '[', ']', '\\', '.', ',', ';', ':', '@', '"'].contains c)
    && !c.isWhitespace

/-- No two consecutive dots occur in the list. -/
def noDoubleDot : List Char → Bool
  | a :: b :: r => !(a == '.' && b == '.') && noDoubleDot (b :: r)
  | _ => true

/-- The first character is a dot. -/
def headIsDot : List Char → Bool
  | c :: _ => c == '.'
  | [] => false

/-- The last character is a dot. -/
def lastIsDot : List Char → Bool
  | [] => false
  | [c] => c == '.'
  | _ :: r => lastIsDot r

/-- Modelled from the spec: the local part of a valid address is a nonempty
sequence of dot-separated nonempty atoms of admissible characters. -/
def validLocal (l : List Char) : Bool :=
  !l.isEmpty && l.all (fun c => isLocalChar c || c == '.')
    && !headIsDot l && !lastIsDot l && noDoubleDot l

/-- A character admissible in a domain label: alphanumeric or hyphen. -/
def isDomainChar (c : Char) : Bool :=
  c.isAlphanum || c == '-'

/-- Modelled from the spec: the domain of a valid address is a nonempty
dot-separated sequence of at least two nonempty labels of admissible
characters. -/
def validDomain (d : List Char) : Bool :=
  !d.isEmpty && d.all (fun c => isDomainChar c || c == '.')
    && !headIsDot d && !lastIsDot d && noDoubleDot d
    && d.contains '.'

/-- Modelled from the spec: parsing an address into local part and domain.
Splits at the first `@`; there must be no further `@` and both parts must be
well formed.  Mirrors `email.match(EMAIL_REGEX)` returning `parts` with
`parts[1]` the local part and `parts[5]` the domain (on a match the JavaScript
array always has its full fixed length, so the `parts.length < 5` guard in the
source only fires when the match failed). -/
def parseEmail (e : List Char) : Option (List Char × List Char) :=
  let localPart := e.takeWhile (fun c => !(c == '@'))
  let rest := e.dropWhile (fun c => !(c == '@'))
  match rest with
  | [] => none
  | _ :: domainPart =>
    if domainPart.contains '@' then none
    else if validLocal localPart && validDomain domainPart then
      some (localPart, domainPart)
    else none

/-- The literal domain `gmail.com`. -/
def gmailL : List Char := ("gmail.com").toList

/-- The literal domain `googlemail.com`. -/
def googlemailL : List Char := ("googlemail.com").toList

/-- `user.replace(/[.]|(\+.*)/g, "")` from `adjustEmail`: every dot is removed
and everything from the first `+` onwards is discarded. -/
def gmailClean (l : List Char) : List Char :=
  (l.takeWhile (fun c => !(c == '+'))).filter (fun c => !(c == '.'))

/-- `adjustEmail` from `src/api/src/routes/auth/register.ts` lines 258-273:
parse the address; on failure return `undefined`; for the domains `gmail.com`
and `googlemail.com` return the cleaned local part recombined with
`@gmail.com`; for every other domain return the input unchanged. -/
def adjustEmail (e : List Char) : Option (List Char) :=
  match parseEmail e with
  | none => none
  | some (l, d) =>
    if d == gmailL || d == googlemailL then some (gmailClean l ++ '@' :: gmailL)
    else some e

/-- A row of the `users` table, restricted to the columns the registration core
reads or writes (entity `User` in `src/unnamed/part_000`).  Columns that the
route handler does not set keep the entity defaults (`fingerprints = []`,
`system = false`, `deleted = false`). -/
structure UserRow where
  id : Nat
  username : List Char
  discriminator : List Char
  email : Option (List Char)
  fingerprints : List (List Char)
  system : Bool
  deleted : Bool
deriving DecidableEq, Repr

/-- A row of the settings table (entity `UserSettings`), reduced to the owner
id and locale, which is all the registration core writes. -/
structure SettingsRow where
  ownerId : Nat
  locale : List Char
deriving DecidableEq, Repr

/-- The subset of `Config.get().register` / `security` that the route handler
reads. -/
structure RouteConfig where
  blockProxies : Bool
  allowNewRegistration : Bool
  requireInvite : Bool
  emailNecessary : Bool
  dobNecessary : Bool
  dobMinimum : Option Int
  allowMultipleAccounts : Bool
  requireCaptcha : Bool
  captchaEnabled : Bool
deriving DecidableEq, Repr

/-- The validated request body of `POST /auth/register`.  `none` models an
absent (`undefined`) optional field. -/
structure RouteReq where
  username : List Char
  password : List Char
  consent : Bool
  email : Option (List Char)
  fingerprint : Option (List Char)
  invite : Option (List Char)
  dateOfBirth : Option Int
  captchaKey : Option (List Char)
deriving DecidableEq, Repr

/-- Outcome of the route handler.  `proxyBlocked` is the generic
`HTTPError("Your IP is blocked from registration")`; `fieldError f c` is
`FieldErrors` with field `f` and code `c`; `captchaChallenge` is the 400
response carrying the captcha sitekey; `internalError` is an uncaught runtime
exception (a 500); `success u` is the 201 response with a token for the
created user `u`. -/
inductive RegisterOutcome where
  | proxyBlocked
  | fieldError (field : List Char) (code : List Char)
  | captchaChallenge
  | internalError
  | success (user : UserRow)
deriving DecidableEq, Repr

/-- Whether an outcome is a field-scoped error. -/
def RegisterOutcome.isFieldError : RegisterOutcome → Bool
  | .fieldError _ _ => true
  | _ => false

/-- Field name `email`. -/
def fEmail : List Char := ("email").toList
/-- Field name `consent`. -/
def fConsent : List Char := ("consent").toList
/-- Field name `username`. -/
def fUsername : List Char := ("username").toList
/-- Field name `date_of_birth`. -/
def fDob : List Char := ("date_of_birth").toList
/-- Field name `fingerprint` (never used by the handler, kept for comparison). -/
def fFingerprint : List Char := ("fingerprint").toList

/-- Error code literal. -/
def cRegistrationDisabled : List Char := ("REGISTRATION_DISABLED").toList
/-- Error code literal. -/
def cConsentRequired : List Char := ("CONSENT_REQUIRED").toList
/-- Error code literal. -/
def cInviteOnly : List Char := ("INVITE_ONLY").toList
/-- Error code literal. -/
def cInvalidEmail : List Char := ("INVALID_EMAIL").toList
/-- Error code literal. -/
def cEmailAlreadyRegistered : List Char := ("EMAIL_ALREADY_REGISTERED").toList
/-- Error code literal. -/
def cBaseTypeRequired : List Char := ("BASE_TYPE_REQUIRED").toList
/-- Error code literal. -/
def cUnderage : List Char := ("DATE_OF_BIRTH_UNDERAGE").toList
/-- Error code literal. -/
def cUsernameTooManyUsers : List Char := ("USERNAME_TOO_MANY_USERS").toList

/-- The reserved discriminator `0000`. -/
def zeros4 : List Char := ("0000").toList

/-- `User.findOneOrFail({ email: adjusted_email })` — note: no filter on the
`deleted` column. -/
def emailExists (db : List UserRow) (ae : List Char) : Bool :=
  db.any (fun u => u.email == some ae)

/-- `User.findOne({ where: { fingerprints: In(fingerprint) } })`, modelled as:
some row's fingerprint list contains the supplied fingerprint; an absent
fingerprint matches nothing. -/
def fingerprintExists (db : List UserRow) (fp : Option (List Char)) : Bool :=
  match fp with
  | none => false
  | some f => db.any (fun u => u.fingerprints.contains f)

/-- `User.findOne({ where: { discriminator, username }, select: ["id"] })` —
again with no filter on the `deleted` column. -/
def pairExists (db : List UserRow) (uname disc : List Char) : Bool :=
  db.any (fun u => u.username == uname && u.discriminator == disc)

/-- Decimal digit character. -/
def digitChar (n : Nat) : Char := Char.ofNat (48 + n)

/-- Fuel-driven helper for decimal conversion (structural recursion, so that
the kernel can evaluate it). -/
def natToCharsAux : Nat → Nat → List Char
  | 0, _ => []
  | fuel + 1, n =>
    if n < 10 then [digitChar n]
    else natToCharsAux fuel (n / 10) ++ [digitChar (n % 10)]

/-- Decimal representation of a natural number, mirroring JavaScript
`Number.prototype.toString()`. -/
def natToChars (n : Nat) : List Char :=
  natToCharsAux (n + 1) n

/-- `.padStart(4, "0")`. -/
def padStart4 (s : List Char) : List Char :=
  List.replicate (4 - s.length) '0' ++ s

/-- `Math.randomIntBetween(1, 9999).toString().padStart(4, "0")`: the random
draw is modelled as a `Fin 9999`, whose successor ranges over `[1, 9999]`. -/
def padDisc (d : Fin 9999) : List Char :=
  padStart4 (natToChars (d.val + 1))

/-- The discriminator allocation loop
(`for (let tries = 0; tries < 5; tries++) ...`), with `fuel` iterations left
and `i` the index of the next random draw.  Returns the last generated
discriminator, the final value of `exists`, and the number of lookup attempts
performed. -/
def allocAux (db : List UserRow) (uname : List Char) (draws : Nat → Fin 9999)
    (i : Nat) : Nat → List Char × Bool × Nat
  | 0 => ([], true, 0)
  | 1 =>
    let disc := padDisc (draws i)
    (disc, pairExists db uname disc, 1)
  | (f+2) =>
    let disc := padDisc (draws i)
    if pairExists db uname disc then
      let r := allocAux db uname draws (i+1) (f+1)
      (r.1, r.2.1, r.2.2 + 1)
    else (disc, false, 1)

/-- The five-attempt allocation loop of the route handler
(`src/api/src/routes/auth/register.ts` lines 165-169). -/
def allocLoop (db : List UserRow) (uname : List Char) (draws : Nat → Fin 9999) :
    List Char × Bool × Nat :=
  allocAux db uname draws 0 5

/-- The duplicate-email check block (lines 90-109): if an email string was
supplied and nonempty, an unparsable address is `INVALID_EMAIL` and an address
already present is `EMAIL_ALREADY_REGISTERED`; an empty/absent email is
`BASE_TYPE_REQUIRED` exactly when policy requires one. -/
def emailCheck (cfg : RouteConfig) (db : List UserRow) (e : List Char)
    (ae : Option (List Char)) : Option RegisterOutcome :=
  if !e.isEmpty then
    match ae with
    | none => some (.fieldError fEmail cInvalidEmail)
    | some a =>
      if emailExists db a then some (.fieldError fEmail cEmailAlreadyRegistered)
      else none
  else if cfg.emailNecessary then some (.fieldError fEmail cBaseTypeRequired)
  else none

/-- The date-of-birth block (lines 111-128).  Dates are modelled as integers on
a timeline where subtracting the configured minimum number of years is
subtraction; a JavaScript comparison against `undefined` is false, and a
configured minimum of `0` is falsy and skips the check. -/
def dobCheck (cfg : RouteConfig) (now : Int) (dob : Option Int) :
    Option RegisterOutcome :=
  if cfg.dobNecessary && dob.isNone then some (.fieldError fDob cBaseTypeRequired)
  else
    match cfg.dobMinimum with
    | none => none
    | some m =>
      if m == 0 then none
      else
        match dob with
        | none => none
        | some d => if now - m < d then some (.fieldError fDob cUnderage) else none

/-- The multi-account fingerprint block (lines 130-142).  Note the rejection is
scoped to the `email` field with code `EMAIL_ALREADY_REGISTERED`. -/
def fingerprintCheck (cfg : RouteConfig) (db : List UserRow)
    (fp : Option (List Char)) : Option RegisterOutcome :=
  if !cfg.allowMultipleAccounts then
    if fingerprintExists db fp then
      some (.fieldError fEmail cEmailAlreadyRegistered)
    else none
  else none

/-- The captcha block (lines 144-155): a required captcha with an absent or
empty (falsy) key yields the challenge response. -/
def captchaCheck (cfg : RouteConfig) (key : Option (List Char)) :
    Option RegisterOutcome :=
  if cfg.requireCaptcha && cfg.captchaEnabled then
    match key with
    | none => some .captchaChallenge
    | some k => if k.isEmpty then some .captchaChallenge else none
  else none

/-- The user row built by `new User({...})` (lines 184-252): email column holds
`adjusted_email`, fingerprints are left at the entity default `[]`, and
`system`/`deleted` are set false. -/
def mkRouteUser (genId : Nat) (uname disc : List Char)
    (adjEmail : Option (List Char)) : UserRow :=
  { id := genId, username := uname, discriminator := disc, email := adjEmail,
    fingerprints := [], system := false, deleted := false }

/-- The settings blob embedded in the same `new User({...})` literal. -/
def mkRouteSettings (genId : Nat) (locale : List Char) : SettingsRow :=
  { ownerId := genId, locale := locale }

/-- The `POST /auth/register` handler (lines 28-255).  All database reads
observe the snapshot `db`; the final `.save()` observes the snapshot `dbSave`
(and `sSave` for settings), modelling writes committed by concurrent requests
in between.  The `.save()` call cascades the settings relation, so on success
both rows are appended in the same step; the `users` entity declares no unique
constraint on `(username, discriminator)`, so the save also succeeds when the
pair is already present in `dbSave`.  An absent email reaches
`adjustEmail(undefined)` (line 58), whose `email.match(...)` raises a
`TypeError`, modelled as `internalError`.  The source's local variables
`adjusted_email = adjustEmail(email)` and
`adjusted_username = trimSpecial(username)` are inlined at their use sites. -/
def register (cfg : RouteConfig) (db dbSave : List UserRow)
    (sSave : List SettingsRow) (ipProxy : Bool) (draws : Nat → Fin 9999)
    (genId : Nat) (now : Int) (locale : List Char) (req : RouteReq) :
    RegisterOutcome × List UserRow × List SettingsRow :=
  if cfg.blockProxies && ipProxy then (.proxyBlocked, dbSave, sSave)
  else
    match req.email with
    | none => (.internalError, dbSave, sSave)
    | some e =>
      if !cfg.allowNewRegistration then
        (.fieldError fEmail cRegistrationDisabled, dbSave, sSave)
      else if !req.consent then
        (.fieldError fConsent cConsentRequired, dbSave, sSave)
      else if cfg.requireInvite && req.invite.isNone then
        (.fieldError fEmail cInviteOnly, dbSave, sSave)
      else
        match emailCheck cfg db e (adjustEmail e) with
        | some err => (err, dbSave, sSave)
        | none =>
          match dobCheck cfg now req.dateOfBirth with
          | some err => (err, dbSave, sSave)
          | none =>
            match fingerprintCheck cfg db req.fingerprint with
            | some err => (err, dbSave, sSave)
            | none =>
              match captchaCheck cfg req.captchaKey with
              | some out => (out, dbSave, sSave)
              | none =>
                if (allocLoop db (trimSpecial req.username) draws).2.1 then
                  (.fieldError fUsername cUsernameTooManyUsers, dbSave, sSave)
                else
                  (.success
                      (mkRouteUser genId (trimSpecial req.username)
                        (allocLoop db (trimSpecial req.username) draws).1
                        (adjustEmail e)),
                    dbSave ++
                      [mkRouteUser genId (trimSpecial req.username)
                        (allocLoop db (trimSpecial req.username) draws).1
                        (adjustEmail e)],
                    sSave ++ [mkRouteSettings genId locale])

/-- The argument object of the static `User.register` method
(`src/unnamed/part_000` lines 252-264).  Its type admits `email` and
`date_of_birth`, but the destructuring pattern binds only `username`,
`password`, `id` and `req`. -/
structure URegInput where
  username : List Char
  password : Option (List Char)
  email : Option (List Char)
  dateOfBirth : Option Int
  id : Option Nat
  reqLanguage : Option (List Char)
deriving DecidableEq, Repr

/-- The user row built by `User.create({...})` inside `User.register`
(lines 278-291), with the extra columns it sets explicitly. -/
structure UUserRow where
  id : Nat
  username : List Char
  discriminator : List Char
  email : Option (List Char)
  hash : Option (List Char)
  rights : List Char
  system : Bool
  deleted : Bool
deriving DecidableEq, Repr

/-- The default rights string assigned by `User.register`. -/
def defaultRights : List Char := ("874722686401536").toList

/-- The literal locale `en-US`. -/
def enUSL : List Char := ("en-US").toList

/-- The literal locale `en`. -/
def enL : List Char := ("en").toList

/-- `req?.language === "en" ? "en-US" : req?.language || "en-US"` — an absent
request or an empty (falsy) language falls back to `en-US`. -/
def userRegisterLanguage (reqLanguage : Option (List Char)) : List Char :=
  match reqLanguage with
  | none => enUSL
  | some l => if l == enL then enUSL else if l.isEmpty then enUSL else l

/-- The static `User.register` method (`src/unnamed/part_000` lines 252-306),
up to — but not including — its persistence step: builds the settings record
and the user record.  Only `username`, `password`, `id` and the request
language are read from the input; the discriminator is the literal `"0000"`
and the email column is set to the trimmed username. -/
def userRegister (inp : URegInput) (genId : Nat) : UUserRow × SettingsRow :=
  let uname := trimSpecial inp.username
  let theId := inp.id.getD genId
  let settings : SettingsRow :=
    { ownerId := theId, locale := userRegisterLanguage inp.reqLanguage }
  let user : UUserRow :=
    { id := theId, username := uname, discriminator := zeros4,
      email := some uname, hash := inp.password, rights := defaultRights,
      system := false, deleted := false }
  (user, settings)

/-- A snapshot of the two tables written by `User.register`. -/
structure UDB where
  users : List UUserRow
  settingsRows : List SettingsRow
deriving DecidableEq, Repr

/-- The persistence step of `User.register`:
`await Promise.all([user.save(), settings.save()])`.  The `User.settings`
relation is declared `cascade: true` (entity `User`, `src/unnamed/part_000`
lines 218-224) and the settings entity is attached via
`User.create({ ..., settings })`, so `user.save()` inserts the account row
*and* the settings row in one transaction: both commit or neither does,
controlled by `userSaveFails`.  The standalone `settings.save()` is an
independent write of the same settings row (an upsert — when the cascade also
committed it, the row exists once, not twice), controlled by
`settingsSaveFails`; hence the settings row is visible as soon as either write
succeeded.  `Promise.all` reports failure if either write rejected, but a
failed write does not undo the other, already committed one — in particular a
failed `user.save()` alongside a successful `settings.save()` leaves an orphan
settings row with no account row. -/
def userRegisterPersist (db : UDB) (inp : URegInput) (genId : Nat)
    (userSaveFails settingsSaveFails : Bool) : UDB × Bool :=
  let r := userRegister inp genId
  let users' := if userSaveFails then db.users else db.users ++ [r.1]
  let settings' :=
    if userSaveFails && settingsSaveFails then db.settingsRows
    else db.settingsRows ++ [r.2]
  ({ users := users', settingsRows := settings' },
    !userSaveFails && !settingsSaveFails)

/-- A discriminator actually allocated by the route handler: a four-character
digit string different from the reserved `0000`. -/
def isAllocatedDisc (d : List Char) : Bool :=
  (d.length == 4) && d.all Char.isDigit && !(d == zeros4)

/-- Number of rows holding a given `(username, discriminator)` pair. -/
def countPair (db : List UserRow) (uname disc : List Char) : Nat :=
  (db.filter (fun u => u.username == uname && u.discriminator == disc)).length

/-- Fixture: permissive configuration (registration open, nothing required). -/
def cfgOpen : RouteConfig :=
  { blockProxies := false, allowNewRegistration := true, requireInvite := false,
    emailNecessary := false, dobNecessary := false, dobMinimum := none,
    allowMultipleAccounts := true, requireCaptcha := false,
    captchaEnabled := false }

/-- Fixture: proxy blocking on and registration administratively disabled. -/
def cfgBlockedDisabled : RouteConfig :=
  { cfgOpen with blockProxies := true, allowNewRegistration := false }

/-- Fixture: proxy blocking on, registration otherwise open. -/
def cfgProxyOnly : RouteConfig :=
  { cfgOpen with blockProxies := true }

/-- Fixture: registration administratively disabled, proxies not blocked. -/
def cfgDisabledOnly : RouteConfig :=
  { cfgOpen with allowNewRegistration := false }

/-- Fixture: one account per fingerprint. -/
def cfgNoMulti : RouteConfig :=
  { cfgOpen with allowMultipleAccounts := false }

/-- Fixture: a registration request for `alice` with a plain email. -/
def reqAlice : RouteReq :=
  { username := ("alice").toList, password := ("longenough1").toList,
    consent := true, email := some (("a@b.cc").toList), fingerprint := none,
    invite := none, dateOfBirth := none, captchaKey := none }

/-- Fixture: the constant draw `1` (rendered `0001`). -/
def d0 : Nat → Fin 9999 := fun _ => 0

/-- Fixture: the locale string `en`. -/
def enLoc : List Char := ("en").toList

/-- Fixture: a soft-deleted account holding the canonical email
`a@b.cc`. -/
def delRow : UserRow :=
  { id := 1, username := ("bob").toList, discriminator := ("0002").toList,
    email := some (("a@b.cc").toList), fingerprints := [], system := false,
    deleted := true }

/-- Fixture: an active account already holding `(alice, 0001)`. -/
def aliceTaken : UserRow :=
  { id := 2, username := ("alice").toList, discriminator := ("0001").toList,
    email := none, fingerprints := [], system := false, deleted := false }

/-- Fixture: an active account carrying fingerprint `fp1`. -/
def fpRow : UserRow :=
  { id := 3, username := ("carol").toList, discriminator := ("0005").toList,
    email := none, fingerprints := [("fp1").toList], system := false,
    deleted := false }

/-- Fixture: an input object for `User.register` that does supply an email. -/
def inpDave : URegInput :=
  { username := ("dave").toList, password := some (("pw").toList),
    email := some (("x@y.zz").toList), dateOfBirth := none, id := none,
    reqLanguage := some (("en").toList) }

/-- Fixture: the `alice` request carrying the already-used fingerprint
`fp1`. -/
def reqFp : RouteReq :=
  { reqAlice with fingerprint := some (("fp1").toList) }

/-- Fixture: the empty pair of tables for `User.register` persistence. -/
def emptyUDB : UDB := { users := [], settingsRows := [] }

theorem digitChar_isDigit : ∀ k, k < 10 → (digitChar k).isDigit = true := by
  decide

theorem digitChar_ne_zero : ∀ k, k < 10 → k ≠ 0 → digitChar k ≠ '0' := by
  decide

theorem natToCharsAux_irrel :
    ∀ f g n, n < f → n < g → natToCharsAux f n = natToCharsAux g n := by
  intro f
  induction f with
  | zero => intro g n h _; omega
  | succ f ih =>
    intro g n hf hg
    cases g with
    | zero => omega
    | succ g =>
      by_cases h : n < 10
      · simp [natToCharsAux, h]
      · have hd : n / 10 < n := Nat.div_lt_self (by omega) (by omega)
        simp only [natToCharsAux, if_neg h]
        rw [ih g (n / 10) (by omega) (by omega)]

theorem natToChars_lt10 (n : Nat) (h : n < 10) : natToChars n = [digitChar n] := by
  simp [natToChars, natToCharsAux, h]

theorem natToChars_ge10 (n : Nat) (h : 10 ≤ n) :
    natToChars n = natToChars (n / 10) ++ [digitChar (n % 10)] := by
  have h1 : ¬n < 10 := by omega
  have hd : n / 10 < n := Nat.div_lt_self (by omega) (by omega)
  simp only [natToChars, natToCharsAux, if_neg h1]
  rw [natToCharsAux_irrel n (n / 10 + 1) (n / 10) (by omega) (by omega)]
  simp only [natToCharsAux]

theorem natToChars_range2 (n : Nat) (h : 10 ≤ n) (h2 : n < 100) :
    natToChars n = [digitChar (n / 10), digitChar (n % 10)] := by
  rw [natToChars_ge10 n h, natToChars_lt10 (n / 10) (by omega)]
  rfl

theorem natToChars_range3 (n : Nat) (h : 100 ≤ n) (h2 : n < 1000) :
    natToChars n =
      [digitChar (n / 100), digitChar (n / 10 % 10), digitChar (n % 10)] := by
  rw [natToChars_ge10 n (by omega), natToChars_range2 (n / 10) (by omega) (by omega)]
  have e1 : n / 10 / 10 = n / 100 := by omega
  rw [e1]
  rfl

theorem natToChars_range4 (n : Nat) (h : 1000 ≤ n) (h2 : n < 10000) :
    natToChars n =
      [digitChar (n / 1000), digitChar (n / 100 % 10), digitChar (n / 10 % 10),
        digitChar (n % 10)] := by
  rw [natToChars_ge10 n (by omega), natToChars_range3 (n / 10) (by omega) (by omega)]
  have e1 : n / 10 / 100 = n / 1000 := by omega
  have e2 : n / 10 / 10 % 10 = n / 100 % 10 := by omega
  rw [e1, e2]
  rfl

theorem zeros4_chars : zeros4 = ['0', '0', '0', '0'] := by decide

theorem padDisc_allocated (d : Fin 9999) : isAllocatedDisc (padDisc d) = true := by
  have h1 : 1 ≤ d.val + 1 := by omega
  have h2 : d.val + 1 ≤ 9999 := by omega
  have hc0 : ('0' : Char).isDigit = true := by decide
  rcases Nat.lt_or_ge (d.val + 1) 10 with hr | hr
  · rw [padDisc, padStart4, natToChars_lt10 _ hr]
    have hd1 : (digitChar (d.val + 1)).isDigit = true := digitChar_isDigit _ hr
    have hz : digitChar (d.val + 1) ≠ '0' := digitChar_ne_zero _ hr (by omega)
    simp [isAllocatedDisc, List.replicate, zeros4_chars, hd1, hz, hc0]
  · rcases Nat.lt_or_ge (d.val + 1) 100 with hr2 | hr2
    · rw [padDisc, padStart4, natToChars_range2 _ hr hr2]
      have ha : (digitChar ((d.val + 1) / 10)).isDigit = true :=
        digitChar_isDigit _ (by omega)
      have hb : (digitChar ((d.val + 1) % 10)).isDigit = true :=
        digitChar_isDigit _ (by omega)
      have hz : digitChar ((d.val + 1) / 10) ≠ '0' :=
        digitChar_ne_zero _ (by omega) (by omega)
      simp [isAllocatedDisc, List.replicate, zeros4_chars, ha, hb, hz, hc0]
    · rcases Nat.lt_or_ge (d.val + 1) 1000 with hr3 | hr3
      · rw [padDisc, padStart4, natToChars_range3 _ hr2 hr3]
        have ha : (digitChar ((d.val + 1) / 100)).isDigit = true :=
          digitChar_isDigit _ (by omega)
        have hb : (digitChar ((d.val + 1) / 10 % 10)).isDigit = true :=
          digitChar_isDigit _ (by omega)
        have hcc : (digitChar ((d.val + 1) % 10)).isDigit = true :=
          digitChar_isDigit _ (by omega)
        have hz : digitChar ((d.val + 1) / 100) ≠ '0' :=
          digitChar_ne_zero _ (by omega) (by omega)
        simp [isAllocatedDisc, List.replicate, zeros4_chars, ha, hb, hcc, hz, hc0]
      · rw [padDisc, padStart4, natToChars_range4 _ hr3 (by omega)]
        have ha : (digitChar ((d.val + 1) / 1000)).isDigit = true :=
          digitChar_isDigit _ (by omega)
        have hb : (digitChar ((d.val + 1) / 100 % 10)).isDigit = true :=
          digitChar_isDigit _ (by omega)
        have hcc : (digitChar ((d.val + 1) / 10 % 10)).isDigit = true :=
          digitChar_isDigit _ (by omega)
        have hdd : (digitChar ((d.val + 1) % 10)).isDigit = true :=
          digitChar_isDigit _ (by omega)
        have hz : digitChar ((d.val + 1) / 1000) ≠ '0' :=
          digitChar_ne_zero _ (by omega) (by omega)
        simp [isAllocatedDisc, List.replicate, zeros4_chars, ha, hb, hcc, hdd, hz,
          hc0]

theorem allocAux_attempts_le (db : List UserRow) (un : List Char)
    (dr : Nat → Fin 9999) :
    ∀ fuel i, (allocAux db un dr i fuel).2.2 ≤ fuel := by
  intro fuel
  induction fuel with
  | zero => intro i; simp [allocAux]
  | succ f ih =>
    intro i
    cases f with
    | zero => simp [allocAux]
    | succ f2 =>
      simp only [allocAux]
      by_cases h : pairExists db un (padDisc (dr i)) = true
      · simp only [h, if_true]
        have := ih (i + 1)
        omega
      · simp [h]

theorem allocAux_disc (db : List UserRow) (un : List Char) (dr : Nat → Fin 9999) :
    ∀ fuel i, 1 ≤ fuel →
      ∃ k, (allocAux db un dr i fuel).1 = padDisc (dr k) := by
  intro fuel
  induction fuel with
  | zero => intro i h; omega
  | succ f ih =>
    intro i _
    cases f with
    | zero => exact ⟨i, by simp [allocAux]⟩
    | succ f2 =>
      simp only [allocAux]
      by_cases h : pairExists db un (padDisc (dr i)) = true
      · simp only [h, if_true]
        exact ih (i + 1) (by omega)
      · simp only [h, if_false]
        exact ⟨i, rfl⟩

theorem allocAux_all_taken (db : List UserRow) (un : List Char)
    (dr : Nat → Fin 9999) :
    ∀ fuel i,
      (∀ k, i ≤ k → k < i + fuel → pairExists db un (padDisc (dr k)) = true) →
      (allocAux db un dr i fuel).2.1 = true := by
  intro fuel
  induction fuel with
  | zero => intro i _; simp [allocAux]
  | succ f ih =>
    intro i h
    cases f with
    | zero =>
      have hi := h i (Nat.le_refl i) (by omega)
      simp [allocAux, hi]
    | succ f2 =>
      have hi := h i (Nat.le_refl i) (by omega)
      simp only [allocAux, hi, if_true]
      exact ih (i + 1) (fun k hk1 hk2 => h k (by omega) (by omega))

theorem append_singleton_ne {α : Type} (l : List α) (a : α) : l ++ [a] ≠ l := by
  intro h
  have := congrArg List.length h
  simp at this

theorem emailCheck_some (cfg : RouteConfig) (db : List UserRow) (e : List Char)
    (ae : Option (List Char)) (o : RegisterOutcome)
    (h : emailCheck cfg db e ae = some o) :
    ∃ c, o = RegisterOutcome.fieldError fEmail c := by
  unfold emailCheck at h
  repeat' split at h
  all_goals first
    | exact ⟨_, (Option.some.inj h).symm⟩
    | simp at h

theorem dobCheck_some (cfg : RouteConfig) (now : Int) (dob : Option Int)
    (o : RegisterOutcome) (h : dobCheck cfg now dob = some o) :
    ∃ c, o = RegisterOutcome.fieldError fDob c := by
  unfold dobCheck at h
  repeat' split at h
  all_goals first
    | exact ⟨_, (Option.some.inj h).symm⟩
    | simp at h

theorem fingerprintCheck_some (cfg : RouteConfig) (db : List UserRow)
    (fp : Option (List Char)) (o : RegisterOutcome)
    (h : fingerprintCheck cfg db fp = some o) :
    o = RegisterOutcome.fieldError fEmail cEmailAlreadyRegistered := by
  unfold fingerprintCheck at h
  repeat' split at h
  all_goals first
    | exact (Option.some.inj h).symm
    | simp at h

theorem captchaCheck_some (cfg : RouteConfig) (k : Option (List Char))
    (o : RegisterOutcome) (h : captchaCheck cfg k = some o) :
    o = RegisterOutcome.captchaChallenge := by
  unfold captchaCheck at h
  repeat' split at h
  all_goals first
    | exact (Option.some.inj h).symm
    | simp at h

theorem register_shape (cfg : RouteConfig) (db dbSave : List UserRow)
    (sSave : List SettingsRow) (ipProxy : Bool) (draws : Nat → Fin 9999)
    (genId : Nat) (now : Int) (locale : List Char) (req : RouteReq) :
    (∃ e, req.email = some e ∧
      (allocLoop db (trimSpecial req.username) draws).2.1 = false ∧
      register cfg db dbSave sSave ipProxy draws genId now locale req =
        (RegisterOutcome.success
            (mkRouteUser genId (trimSpecial req.username)
              (allocLoop db (trimSpecial req.username) draws).1 (adjustEmail e)),
          dbSave ++
            [mkRouteUser genId (trimSpecial req.username)
              (allocLoop db (trimSpecial req.username) draws).1 (adjustEmail e)],
          sSave ++ [mkRouteSettings genId locale])) ∨
    ((∀ v, (register cfg db dbSave sSave ipProxy draws genId now locale req).1 ≠
        RegisterOutcome.success v) ∧
      (register cfg db dbSave sSave ipProxy draws genId now locale req).2.1 =
        dbSave ∧
      (register cfg db dbSave sSave ipProxy draws genId now locale req).2.2 =
        sSave) := by
  unfold register
  split
  · right; exact ⟨by simp, rfl, rfl⟩
  · split
    · right; exact ⟨by simp, rfl, rfl⟩
    next e heq =>
      split
      · right; exact ⟨by simp, rfl, rfl⟩
      · split
        · right; exact ⟨by simp, rfl, rfl⟩
        · split
          · right; exact ⟨by simp, rfl, rfl⟩
          · split
            next err heqe =>
              right
              obtain ⟨c, rfl⟩ := emailCheck_some _ _ _ _ _ heqe
              exact ⟨by simp, rfl, rfl⟩
            · split
              next err heqd =>
                right
                obtain ⟨c, rfl⟩ := dobCheck_some _ _ _ _ heqd
                exact ⟨by simp, rfl, rfl⟩
              · split
                next err heqf =>
                  right
                  obtain rfl := fingerprintCheck_some _ _ _ _ heqf
                  exact ⟨by simp, rfl, rfl⟩
                · split
                  next out heqc =>
                    right
                    obtain rfl := captchaCheck_some _ _ _ heqc
                    exact ⟨by simp, rfl, rfl⟩
                  · split
                    · right; exact ⟨by simp, rfl, rfl⟩
                    next hfree =>
                      left
                      exact ⟨e, heq, by simpa using hfree, rfl⟩

/-- C10: every call to the static `User.register` ignores the `email` field of
its input object entirely, and the created account's stored email column
equals the control-character-trimmed `username` argument. -/
theorem userRegister_email_from_username :
    (∀ inp genId e,
      userRegister { inp with email := e } genId = userRegister inp genId) ∧
    (∀ inp genId,
      (userRegister inp genId).1.email = some (trimSpecial inp.username)) :=
  ⟨fun _ _ _ => rfl, fun _ _ => rfl⟩

/-- C1 counterexample: the static `User.register` method creates an ordinary
account (`system = false`, `deleted = false`) whose discriminator is the
reserved string `0000`, so a registration can assign `0000` to a newly
registered non-system account, contrary to the claim. -/
theorem userRegister_assigns_reserved_discriminator :
    (userRegister inpDave 9).1.discriminator = zeros4 ∧
    (userRegister inpDave 9).1.system = false ∧
    (userRegister inpDave 9).1.deleted = false :=
  ⟨rfl, rfl, rfl⟩

/-- C1 amended: every account created by the HTTP route handler is assigned a
four-digit discriminator different from `0000` (the draw ranges over
`[1, 9999]`), while every account created through the static `User.register`
method is assigned the reserved discriminator `0000`. -/
theorem registration_discriminator_amended :
    (∀ cfg db dbSave sSave ipProxy draws genId now locale req u,
      (register cfg db dbSave sSave ipProxy draws genId now locale req).1 =
        RegisterOutcome.success u →
      isAllocatedDisc u.discriminator = true) ∧
    (∀ inp genId, (userRegister inp genId).1.discriminator = zeros4) := by
  constructor
  · intro cfg db dbSave sSave ipProxy draws genId now locale req u h
    rcases register_shape cfg db dbSave sSave ipProxy draws genId now locale req
      with ⟨e, _, _, hreg⟩ | ⟨hns, _, _⟩
    · rw [hreg] at h
      have h2 : RegisterOutcome.success
          (mkRouteUser genId (trimSpecial req.username)
            (allocLoop db (trimSpecial req.username) draws).1 (adjustEmail e)) =
          RegisterOutcome.success u := h
      injection h2 with h3
      rw [← h3]
      obtain ⟨k, hk⟩ :=
        allocAux_disc db (trimSpecial req.username) draws 5 0 (by omega)
      have h4 : (mkRouteUser genId (trimSpecial req.username)
          (allocLoop db (trimSpecial req.username) draws).1
          (adjustEmail e)).discriminator =
          (allocAux db (trimSpecial req.username) draws 0 5).1 := rfl
      rw [h4, hk]
      exact padDisc_allocated (draws k)
    · exact absurd h (hns u)
  · intro inp genId
    rfl

/-- C1 amended witness: a concrete successful registration through the route
handler yields the discriminator `0001`, which is allocated (four digits, not
`0000`). -/
theorem registration_discriminator_amended_witness :
    isAllocatedDisc
      (mkRouteUser 7 (("alice").toList) (("0001").toList)
        (some (("a@b.cc").toList))).discriminator = true :=
  registration_discriminator_amended.1 cfgOpen [] [] [] false d0 7 0 enLoc
    reqAlice _ (by decide)

/-- C2 counterexample: `User.register` persists the account and its settings
with `Promise.all([user.save(), settings.save()])`.  The cascading
`user.save()` writes account plus settings transactionally, but the standalone
`settings.save()` is an independent write: injecting a failure into
`user.save()` while `settings.save()` succeeds leaves an orphan settings row
visible with no account row — the registration failed, yet one of the two rows
became visible and outlives the other, contradicting the claim that a failure
between the writes leaves neither row visible. -/
theorem userRegister_partial_write_counterexample :
    (userRegisterPersist emptyUDB inpDave 9 true false).1.settingsRows =
      [(userRegister inpDave 9).2] ∧
    (userRegisterPersist emptyUDB inpDave 9 true false).1.users = [] ∧
    (userRegisterPersist emptyUDB inpDave 9 true false).2 = false :=
  ⟨rfl, rfl, rfl⟩

/-- C2 amended: the route handler's single cascading `.save()` writes the
account row and the settings row together or not at all, and so does the
cascading `user.save()` inside `User.register`; but `User.register`
additionally issues a standalone `settings.save()` in parallel with no
enclosing transaction, so when the account write fails and the settings write
succeeds, an orphan settings row is visible with no account row. -/
theorem registration_atomicity_amended :
    (∀ cfg db dbSave sSave ipProxy draws genId now locale req,
      ((register cfg db dbSave sSave ipProxy draws genId now locale req).2.1 =
          dbSave ↔
        (register cfg db dbSave sSave ipProxy draws genId now locale req).2.2 =
          sSave)) ∧
    (∀ db inp genId,
      (userRegisterPersist db inp genId true false).1.users = db.users ∧
      (userRegisterPersist db inp genId true false).1.settingsRows =
        db.settingsRows ++ [(userRegister inp genId).2]) := by
  constructor
  · intro cfg db dbSave sSave ipProxy draws genId now locale req
    rcases register_shape cfg db dbSave sSave ipProxy draws genId now locale req
      with ⟨e, _, _, hreg⟩ | ⟨_, h1, h2⟩
    · rw [hreg]
      exact iff_of_false (append_singleton_ne _ _) (append_singleton_ne _ _)
    · rw [h1, h2]
      exact iff_of_true rfl rfl
  · intro db inp genId
    exact ⟨rfl, rfl⟩

/-- C3 counterexample: a late collision (the pair `(alice, 0001)` is free in
the check-time snapshot but taken in the save-time snapshot) is not detected
at all: the handler returns success, stores a duplicate
`(username, discriminator)` pair, re-runs nothing, and surfaces no conflict
error — the `users` entity declares no unique constraint and the save is not
guarded. -/
theorem late_collision_counterexample :
    (register cfgOpen [] [aliceTaken] [] false d0 7 0 enLoc reqAlice).1 =
      RegisterOutcome.success
        (mkRouteUser 7 (("alice").toList) (("0001").toList)
          (some (("a@b.cc").toList))) ∧
    pairExists [aliceTaken] (("alice").toList) (("0001").toList) = true ∧
    countPair
      (register cfgOpen [] [aliceTaken] [] false d0 7 0 enLoc reqAlice).2.1
      (("alice").toList) (("0001").toList) = 2 := by
  decide

/-- C3 amended: the only collision handling is the bounded pre-write check;
whenever the handler reaches a successful outcome, the final save appends the
new row unconditionally — for every save-time snapshot, including one in which
a concurrent registration already took the same `(username, discriminator)`
pair — so a write-time collision is never turned into a retry or a conflict
error. -/
theorem register_save_unconditional (cfg : RouteConfig) (db dbSave : List UserRow)
    (sSave : List SettingsRow) (ipProxy : Bool) (draws : Nat → Fin 9999)
    (genId : Nat) (now : Int) (locale : List Char) (req : RouteReq) (u : UserRow)
    (h : (register cfg db dbSave sSave ipProxy draws genId now locale req).1 =
      RegisterOutcome.success u) :
    (register cfg db dbSave sSave ipProxy draws genId now locale req).2.1 =
      dbSave ++ [u] := by
  rcases register_shape cfg db dbSave sSave ipProxy draws genId now locale req
    with ⟨e, _, _, hreg⟩ | ⟨hns, _, _⟩
  · rw [hreg] at h ⊢
    have h2 : RegisterOutcome.success
        (mkRouteUser genId (trimSpecial req.username)
          (allocLoop db (trimSpecial req.username) draws).1 (adjustEmail e)) =
        RegisterOutcome.success u := h
    injection h2 with h3
    rw [h3]
  · exact absurd h (hns u)

/-- C3 amended witness: concretely, with `(alice, 0001)` already committed in
the save-time snapshot, the save still appends a second row for the same
pair. -/
theorem register_save_unconditional_witness :
    (register cfgOpen [] [aliceTaken] [] false d0 7 0 enLoc reqAlice).2.1 =
      [aliceTaken] ++
        [mkRouteUser 7 (("alice").toList) (("0001").toList)
          (some (("a@b.cc").toList))] :=
  register_save_unconditional cfgOpen [] [aliceTaken] [] false d0 7 0 enLoc
    reqAlice _ (by decide)

/-- C4: the allocation loop performs at most five lookup attempts, and when
every attempted `(username, candidate)` pair is already taken the call
terminates with the field error `USERNAME_TOO_MANY_USERS` on `username`. -/
theorem alloc_bounded_exhaustion (cfg : RouteConfig) (db dbSave : List UserRow)
    (sSave : List SettingsRow) (ipProxy : Bool) (draws : Nat → Fin 9999)
    (genId : Nat) (now : Int) (locale : List Char) (req : RouteReq)
    (e : List Char)
    (hpx : (cfg.blockProxies && ipProxy) = false)
    (hemail : req.email = some e)
    (hreg : cfg.allowNewRegistration = true)
    (hconsent : req.consent = true)
    (hinv : (cfg.requireInvite && req.invite.isNone) = false)
    (hec : emailCheck cfg db e (adjustEmail e) = none)
    (hdob : dobCheck cfg now req.dateOfBirth = none)
    (hfp : fingerprintCheck cfg db req.fingerprint = none)
    (hcap : captchaCheck cfg req.captchaKey = none)
    (htaken : ∀ k, k < 5 →
      pairExists db (trimSpecial req.username) (padDisc (draws k)) = true) :
    (register cfg db dbSave sSave ipProxy draws genId now locale req).1 =
      RegisterOutcome.fieldError fUsername cUsernameTooManyUsers ∧
    (allocLoop db (trimSpecial req.username) draws).2.2 ≤ 5 := by
  have hex : (allocLoop db (trimSpecial req.username) draws).2.1 = true :=
    allocAux_all_taken db (trimSpecial req.username) draws 5 0
      (fun k hk1 hk2 => htaken k (by omega))
  constructor
  · simp [register, hpx, hemail, hreg, hconsent, hinv, hec, hdob, hfp, hcap, hex]
  · exact allocAux_attempts_le db (trimSpecial req.username) draws 5 0

/-- C4 witness: with `(alice, 0001)` taken and the draw stream constantly
producing `0001`, every attempt collides and the call fails with
`USERNAME_TOO_MANY_USERS`. -/
theorem alloc_bounded_exhaustion_witness :
    (register cfgOpen [aliceTaken] [] [] false d0 7 0 enLoc reqAlice).1 =
      RegisterOutcome.fieldError fUsername cUsernameTooManyUsers := by
  have hall :
      pairExists [aliceTaken] (trimSpecial reqAlice.username)
        (padDisc (0 : Fin 9999)) = true := by decide
  exact (alloc_bounded_exhaustion cfgOpen [aliceTaken] [] [] false d0 7 0 enLoc
    reqAlice (("a@b.cc").toList) (by decide) rfl rfl rfl (by decide) (by decide)
    (by decide) (by decide) (by decide) (fun k _ => hall)).1

/-- C5 counterexample: with proxy blocking enabled, a proxy origin and new
registration administratively disabled, the handler rejects with the generic
proxy error, not with the registration-disabled field error the claim
requires. -/
theorem proxy_precedes_disabled_counterexample :
    (register cfgBlockedDisabled [] [] [] true d0 7 0 enLoc reqAlice).1 =
      RegisterOutcome.proxyBlocked ∧
    (register cfgBlockedDisabled [] [] [] true d0 7 0 enLoc reqAlice).1 ≠
      RegisterOutcome.fieldError fEmail cRegistrationDisabled := by
  decide

/-- C5 amended: the proxy-origin check is evaluated first, before every policy
check; once it passes (and an email string was supplied, since an absent email
crashes the handler before any policy check), the registration-enabled,
consent, and invite-required checks follow in that order. -/
theorem check_order_amended (cfg : RouteConfig) (db dbSave : List UserRow)
    (sSave : List SettingsRow) (ipProxy : Bool) (draws : Nat → Fin 9999)
    (genId : Nat) (now : Int) (locale : List Char) (req : RouteReq)
    (e : List Char) :
    ((cfg.blockProxies && ipProxy) = true →
      (register cfg db dbSave sSave ipProxy draws genId now locale req).1 =
        RegisterOutcome.proxyBlocked) ∧
    ((cfg.blockProxies && ipProxy) = false → req.email = some e →
      cfg.allowNewRegistration = false →
      (register cfg db dbSave sSave ipProxy draws genId now locale req).1 =
        RegisterOutcome.fieldError fEmail cRegistrationDisabled) ∧
    ((cfg.blockProxies && ipProxy) = false → req.email = some e →
      cfg.allowNewRegistration = true → req.consent = false →
      (register cfg db dbSave sSave ipProxy draws genId now locale req).1 =
        RegisterOutcome.fieldError fConsent cConsentRequired) ∧
    ((cfg.blockProxies && ipProxy) = false → req.email = some e →
      cfg.allowNewRegistration = true → req.consent = true →
      (cfg.requireInvite && req.invite.isNone) = true →
      (register cfg db dbSave sSave ipProxy draws genId now locale req).1 =
        RegisterOutcome.fieldError fEmail cInviteOnly) := by
  refine ⟨?_, ?_, ?_, ?_⟩
  · intro h1
    simp [register, h1]
  · intro h1 h2 h3
    simp [register, h1, h2, h3]
  · intro h1 h2 h3 h4
    simp [register, h1, h2, h3, h4]
  · intro h1 h2 h3 h4 h5
    simp [register, h1, h2, h3, h4, h5]

/-- C5 amended witness: with proxies not blocked and registration disabled,
the handler produces the registration-disabled field error. -/
theorem check_order_amended_witness :
    (register cfgDisabledOnly [] [] [] false d0 7 0 enLoc reqAlice).1 =
      RegisterOutcome.fieldError fEmail cRegistrationDisabled :=
  (check_order_amended cfgDisabledOnly [] [] [] false d0 7 0 enLoc reqAlice
    (("a@b.cc").toList)).2.1 (by decide) rfl rfl

/-- C6 counterexample: the proxy-origin rejection is the generic
`HTTPError("Your IP is blocked from registration")`, which is not scoped to
any field, contrary to the claim that every FraudGuard rejection is
field-scoped. -/
theorem proxy_rejection_unscoped_counterexample :
    (register cfgProxyOnly [] [] [] true d0 7 0 enLoc reqAlice).1 =
      RegisterOutcome.proxyBlocked ∧
    ((register cfgProxyOnly [] [] [] true d0 7 0 enLoc reqAlice).1).isFieldError
      = false := by
  decide

/-- C6 amended: the proxy-origin rejection is a generic unscoped error, and the
fingerprint-reuse rejection is scoped to the `email` field with code
`EMAIL_ALREADY_REGISTERED`, not to the fingerprint field; the remaining
FraudGuard rejections are field-scoped. -/
theorem rejection_scoping_amended (cfg : RouteConfig) (db dbSave : List UserRow)
    (sSave : List SettingsRow) (ipProxy : Bool) (draws : Nat → Fin 9999)
    (genId : Nat) (now : Int) (locale : List Char) (req : RouteReq)
    (e : List Char) :
    ((cfg.blockProxies && ipProxy) = true →
      (register cfg db dbSave sSave ipProxy draws genId now locale req).1 =
        RegisterOutcome.proxyBlocked ∧
      RegisterOutcome.proxyBlocked.isFieldError = false) ∧
    ((cfg.blockProxies && ipProxy) = false → req.email = some e →
      cfg.allowNewRegistration = true → req.consent = true →
      (cfg.requireInvite && req.invite.isNone) = false →
      emailCheck cfg db e (adjustEmail e) = none →
      dobCheck cfg now req.dateOfBirth = none →
      cfg.allowMultipleAccounts = false →
      fingerprintExists db req.fingerprint = true →
      (register cfg db dbSave sSave ipProxy draws genId now locale req).1 =
        RegisterOutcome.fieldError fEmail cEmailAlreadyRegistered ∧
      fEmail ≠ fFingerprint) := by
  constructor
  · intro h1
    constructor
    · simp [register, h1]
    · rfl
  · intro h1 h2 h3 h4 h5 h6 h7 h8 h9
    constructor
    · have hfc : fingerprintCheck cfg db req.fingerprint =
          some (RegisterOutcome.fieldError fEmail cEmailAlreadyRegistered) := by
        simp [fingerprintCheck, h8, h9]
      simp [register, h1, h2, h3, h4, h5, h6, h7, hfc]
    · decide

/-- C6 amended witness: a concrete fingerprint-reuse rejection lands on the
`email` field. -/
theorem rejection_scoping_amended_witness :
    (register cfgNoMulti [fpRow] [] [] false d0 7 0 enLoc reqFp).1 =
      RegisterOutcome.fieldError fEmail cEmailAlreadyRegistered :=
  ((rejection_scoping_amended cfgNoMulti [fpRow] [] [] false d0 7 0 enLoc reqFp
    (("a@b.cc").toList)).2 (by decide) rfl rfl rfl (by decide) (by decide)
    (by decide) rfl (by decide)).1

/-- C7 counterexample: the duplicate-email lookup
`User.findOneOrFail({ email: adjusted_email })` does not filter on the
`deleted` column, so a canonical email held only by a soft-deleted account
still blocks registration with `EMAIL_ALREADY_REGISTERED`, contrary to the
claim. -/
theorem deleted_email_blocks_counterexample :
    (register cfgOpen [delRow] [delRow] [] false d0 7 0 enLoc reqAlice).1 =
      RegisterOutcome.fieldError fEmail cEmailAlreadyRegistered ∧
    delRow.deleted = true ∧
    (List.all [delRow] (fun u => u.deleted)) = true := by
  decide

/-- C7 amended: when an email is supplied (and, to isolate the email check,
multiple accounts per fingerprint are allowed), registration is rejected with
`EMAIL_ALREADY_REGISTERED` if and only if some account — active or
soft-deleted alike — holds the canonical form of the email: the lookup ignores
the `deleted` flag. -/
theorem email_conflict_iff_amended (cfg : RouteConfig) (db dbSave : List UserRow)
    (sSave : List SettingsRow) (ipProxy : Bool) (draws : Nat → Fin 9999)
    (genId : Nat) (now : Int) (locale : List Char) (req : RouteReq)
    (e ae : List Char)
    (hpx : (cfg.blockProxies && ipProxy) = false)
    (hemail : req.email = some e)
    (hne : e.isEmpty = false)
    (hadj : adjustEmail e = some ae)
    (hreg : cfg.allowNewRegistration = true)
    (hconsent : req.consent = true)
    (hinv : (cfg.requireInvite && req.invite.isNone) = false)
    (hmulti : cfg.allowMultipleAccounts = true) :
    ((register cfg db dbSave sSave ipProxy draws genId now locale req).1 =
        RegisterOutcome.fieldError fEmail cEmailAlreadyRegistered ↔
      emailExists db ae = true) := by
  by_cases hex : emailExists db ae = true
  · have hecheck : emailCheck cfg db e (adjustEmail e) =
        some (RegisterOutcome.fieldError fEmail cEmailAlreadyRegistered) := by
      simp [emailCheck, hne, hadj, hex]
    simp [register, hpx, hemail, hreg, hconsent, hinv, hecheck, hex]
  · have hb : emailExists db ae = false := by
      simpa using hex
    have hecheck : emailCheck cfg db e (adjustEmail e) = none := by
      simp [emailCheck, hne, hadj, hb]
    have hfc : fingerprintCheck cfg db req.fingerprint = none := by
      simp [fingerprintCheck, hmulti]
    rw [hb]
    simp only [Bool.false_eq_true, iff_false]
    intro hcon
    rcases hdc : dobCheck cfg now req.dateOfBirth with _ | od
    · rcases hcc : captchaCheck cfg req.captchaKey with _ | oc
      · by_cases hal : (allocLoop db (trimSpecial req.username) draws).2.1 = true
        · simp [register, hpx, hemail, hreg, hconsent, hinv, hecheck, hfc, hdc,
            hcc, hal] at hcon
          obtain ⟨h1, h2⟩ := hcon
          exact absurd h1 (by decide)
        · have hal2 : (allocLoop db (trimSpecial req.username) draws).2.1 =
              false := by simpa using hal
          simp [register, hpx, hemail, hreg, hconsent, hinv, hecheck, hfc, hdc,
            hcc, hal2] at hcon
      · obtain rfl := captchaCheck_some _ _ _ hcc
        simp [register, hpx, hemail, hreg, hconsent, hinv, hecheck, hfc, hdc,
          hcc] at hcon
    · obtain ⟨c, rfl⟩ := dobCheck_some _ _ _ _ hdc
      simp [register, hpx, hemail, hreg, hconsent, hinv, hecheck, hdc] at hcon
      obtain ⟨h1, h2⟩ := hcon
      exact absurd h1 (by decide)

/-- C7 amended witness: a soft-deleted holder of the canonical email makes the
right-hand side true and the handler indeed rejects with
`EMAIL_ALREADY_REGISTERED`. -/
theorem email_conflict_iff_amended_witness :
    (register cfgOpen [delRow] [delRow] [] false d0 7 0 enLoc reqAlice).1 =
      RegisterOutcome.fieldError fEmail cEmailAlreadyRegistered :=
  (email_conflict_iff_amended cfgOpen [delRow] [delRow] [] false d0 7 0 enLoc
    reqAlice (("a@b.cc").toList) (("a@b.cc").toList) (by decide) rfl (by decide)
    (by decide) rfl rfl (by decide) rfl).mpr (by decide)

theorem mem_takeWhile_own (p : Char → Bool) :
    ∀ (l : List Char) (c : Char), c ∈ l.takeWhile p → c ∈ l ∧ p c = true := by
  intro l
  induction l with
  | nil =>
    intro c h
    simp [List.takeWhile] at h
  | cons a t ih =>
    intro c h
    cases hpa : p a with
    | false =>
      simp [List.takeWhile, hpa] at h
    | true =>
      simp only [List.takeWhile, hpa] at h
      rcases List.mem_cons.mp h with rfl | h2
      · exact ⟨List.mem_cons_self c t, hpa⟩
      · obtain ⟨h3, h4⟩ := ih c h2
        exact ⟨List.mem_cons_of_mem a h3, h4⟩

theorem takeWhile_eq_self_own (p : Char → Bool) :
    ∀ l : List Char, (∀ c ∈ l, p c = true) → l.takeWhile p = l := by
  intro l
  induction l with
  | nil => intro _; rfl
  | cons a t ih =>
    intro h
    have hpa : p a = true := h a (List.mem_cons_self a t)
    simp only [List.takeWhile, hpa]
    rw [ih (fun c hc => h c (List.mem_cons_of_mem a hc))]

theorem filter_eq_self_own (p : Char → Bool) :
    ∀ l : List Char, (∀ c ∈ l, p c = true) → l.filter p = l := by
  intro l
  induction l with
  | nil => intro _; rfl
  | cons a t ih =>
    intro h
    have hpa : p a = true := h a (List.mem_cons_self a t)
    simp only [List.filter, hpa]
    rw [ih (fun c hc => h c (List.mem_cons_of_mem a hc))]

theorem takeWhile_append_not (p : Char → Bool) (x : Char) (r : List Char) :
    ∀ l : List Char, (∀ c ∈ l, p c = true) → p x = false →
      (l ++ x :: r).takeWhile p = l ∧ (l ++ x :: r).dropWhile p = x :: r := by
  intro l
  induction l with
  | nil =>
    intro _ hx
    simp [List.takeWhile, List.dropWhile, hx]
  | cons a t ih =>
    intro h hx
    have hpa : p a = true := h a (List.mem_cons_self a t)
    obtain ⟨h1, h2⟩ := ih (fun c hc => h c (List.mem_cons_of_mem a hc)) hx
    constructor
    · simp only [List.cons_append, List.takeWhile, hpa]
      rw [show t.append (x :: r) = t ++ x :: r from rfl, h1]
    · simp only [List.cons_append, List.dropWhile, hpa]
      exact h2

theorem noDoubleDot_of_no_dot : ∀ m : List Char, '.' ∉ m → noDoubleDot m = true := by
  intro m
  induction m with
  | nil => intro _; rfl
  | cons a t ih =>
    intro h
    cases t with
    | nil => rfl
    | cons b r =>
      have ha : (a == '.') = false := by
        have : a ≠ '.' := fun hh => h (by simp [hh])
        simpa using this
      simp only [noDoubleDot, ha, Bool.false_and, Bool.not_false, Bool.true_and]
      exact ih (fun hm => h (List.mem_cons_of_mem a hm))

theorem headIsDot_of_no_dot (m : List Char) (h : '.' ∉ m) : headIsDot m = false := by
  cases m with
  | nil => rfl
  | cons a t =>
    have : a ≠ '.' := fun hh => h (by simp [hh])
    simpa [headIsDot] using this

theorem lastIsDot_of_no_dot : ∀ m : List Char, '.' ∉ m → lastIsDot m = false := by
  intro m
  induction m with
  | nil => intro _; rfl
  | cons a t ih =>
    intro h
    cases t with
    | nil =>
      have : a ≠ '.' := fun hh => h (by simp [hh])
      simpa [lastIsDot] using this
    | cons b r =>
      simp only [lastIsDot]
      exact ih (fun hm => h (List.mem_cons_of_mem a hm))

theorem mem_gmailClean (l : List Char) (c : Char) (h : c ∈ gmailClean l) :
    c ∈ l ∧ (c == '+') = false ∧ (c == '.') = false := by
  unfold gmailClean at h
  rw [List.mem_filter] at h
  obtain ⟨h1, h2⟩ := h
  obtain ⟨h3, h4⟩ := mem_takeWhile_own _ _ _ h1
  refine ⟨h3, ?_, ?_⟩
  · simpa using h4
  · simpa using h2

theorem gmailClean_idem (l : List Char) :
    gmailClean (gmailClean l) = gmailClean l := by
  have ht : (gmailClean l).takeWhile (fun c => !(c == '+')) = gmailClean l :=
    takeWhile_eq_self_own _ _ (fun c hc => by
      obtain ⟨_, h2, _⟩ := mem_gmailClean l c hc
      simp [h2])
  show ((gmailClean l).takeWhile (fun c => !(c == '+'))).filter
      (fun c => !(c == '.')) = gmailClean l
  rw [ht]
  exact filter_eq_self_own _ _ (fun c hc => by
    obtain ⟨_, _, h3⟩ := mem_gmailClean l c hc
    simp [h3])

theorem validLocal_parts (l : List Char) (h : validLocal l = true) :
    l.isEmpty = false ∧ (∀ c ∈ l, (isLocalChar c || c == '.') = true) := by
  simp only [validLocal, Bool.and_eq_true, Bool.not_eq_true'] at h
  obtain ⟨⟨⟨⟨h1, h2⟩, _⟩, _⟩, _⟩ := h
  exact ⟨h1, fun c hc => by
    have := List.all_eq_true.mp h2 c hc
    simpa using this⟩

theorem validLocal_gmailClean (l : List Char) (hvl : validLocal l = true)
    (hne : gmailClean l ≠ []) : validLocal (gmailClean l) = true := by
  have hmem : ∀ c ∈ gmailClean l, isLocalChar c = true := by
    intro c hc
    obtain ⟨h1, _, h3⟩ := mem_gmailClean l c hc
    have h4 := (validLocal_parts l hvl).2 c h1
    have h4x : isLocalChar c = true ∨ c = '.' := by simpa using h4
    rcases h4x with h5 | h5
    · exact h5
    · subst h5; simp at h3
  have hnd : '.' ∉ gmailClean l := by
    intro hc
    obtain ⟨_, _, h3⟩ := mem_gmailClean l '.' hc
    simp at h3
  simp only [validLocal, Bool.and_eq_true, Bool.not_eq_true']
  refine ⟨⟨⟨⟨?_, ?_⟩, ?_⟩, ?_⟩, ?_⟩
  · cases hg : gmailClean l with
    | nil => exact absurd hg hne
    | cons a t => rfl
  · exact List.all_eq_true.mpr (fun c hc => by simp [hmem c hc])
  · exact headIsDot_of_no_dot _ hnd
  · exact lastIsDot_of_no_dot _ hnd
  · exact noDoubleDot_of_no_dot _ hnd

theorem parseEmail_valid (e l d : List Char)
    (hp : parseEmail e = some (l, d)) :
    validLocal l = true ∧ validDomain d = true := by
  simp only [parseEmail] at hp
  split at hp
  · exact absurd hp (by simp)
  · split at hp
    · exact absurd hp (by simp)
    · split at hp
      next h =>
        have hpair := Option.some.inj hp
        rw [Prod.mk.injEq] at hpair
        obtain ⟨rfl, rfl⟩ := hpair
        constructor <;> simp_all
      · exact absurd hp (by simp)

theorem parseEmail_recombined (m : List Char)
    (hvl : validLocal m = true) (hat : ∀ c ∈ m, (c == '@') = false) :
    parseEmail (m ++ '@' :: gmailL) = some (m, gmailL) := by
  obtain ⟨htw, hdw⟩ :=
    takeWhile_append_not (fun c => !(c == '@')) '@' gmailL m
      (fun c hc => by simp [hat c hc]) (by decide)
  simp only [parseEmail]
  rw [htw, hdw]
  have hcontains : gmailL.contains '@' = false := by decide
  have hvd : validDomain gmailL = true := by decide
  simp [hcontains, hvl, hvd]
  decide

theorem adjustEmail_idempotent_amended (e v l d : List Char)
    (hp : parseEmail e = some (l, d))
    (hv : adjustEmail e = some v)
    (hg : (d == gmailL || d == googlemailL) = true → gmailClean l ≠ []) :
    adjustEmail v = some v := by
  have hvl := (parseEmail_valid e l d hp).1
  simp only [adjustEmail, hp] at hv
  by_cases hd : (d == gmailL || d == googlemailL) = true
  · rw [if_pos hd] at hv
    obtain rfl := Option.some.inj hv
    have hat : ∀ c ∈ gmailClean l, (c == '@') = false := by
      intro c hc
      obtain ⟨h1, _, h3⟩ := mem_gmailClean l c hc
      have h4 := (validLocal_parts l hvl).2 c h1
      have h4x : isLocalChar c = true ∨ c = '.' := by simpa using h4
      rcases h4x with h5 | h5
      · have h6 : c ≠ '@' := by
          intro hh
          subst hh
          exact absurd h5 (by decide)
        simpa using h6
      · subst h5
        decide
    have hparse2 : parseEmail (gmailClean l ++ '@' :: gmailL) =
        some (gmailClean l, gmailL) :=
      parseEmail_recombined (gmailClean l) (validLocal_gmailClean l hvl (hg hd))
        hat
    simp only [adjustEmail, hparse2]
    rw [if_pos (by decide : ((gmailL == gmailL || gmailL == googlemailL)) = true)]
    rw [gmailClean_idem]
  · rw [if_neg hd] at hv
    obtain rfl := Option.some.inj hv
    simp only [adjustEmail, hp]
    rw [if_neg hd]

theorem adjustEmail_variant_collapse (e1 e2 l1 l2 d : List Char)
    (hp1 : parseEmail e1 = some (l1, d)) (hp2 : parseEmail e2 = some (l2, d))
    (hclean : gmailClean l1 = gmailClean l2) (hne : e1 ≠ e2) :
    ((d == gmailL || d == googlemailL) = true →
      adjustEmail e1 = adjustEmail e2) ∧
    ((d == gmailL || d == googlemailL) = false →
      adjustEmail e1 = some e1 ∧ adjustEmail e2 = some e2 ∧
      adjustEmail e1 ≠ adjustEmail e2) := by
  constructor
  · intro hd
    simp only [adjustEmail, hp1, hp2]
    rw [if_pos hd, if_pos hd, hclean]
  · intro hd
    have hd2 : ¬(d == gmailL || d == googlemailL) = true := by simp [hd]
    constructor
    · simp only [adjustEmail, hp1]
      rw [if_neg hd2]
    constructor
    · simp only [adjustEmail, hp2]
      rw [if_neg hd2]
    · simp only [adjustEmail, hp1, hp2]
      rw [if_neg hd2, if_neg hd2]
      simpa using hne

/-- C8 counterexample: `adjustEmail` returns a value on `+a@gmail.com` (the
gmail-cleaned local part is empty, producing the string `@gmail.com`), yet
applying `adjustEmail` to that result yields `undefined` because `@gmail.com`
no longer matches the address grammar — so canon(canon(x)) differs from
canon(x). -/
theorem adjustEmail_not_idempotent_counterexample :
    adjustEmail (("+a@gmail.com").toList) = some (("@gmail.com").toList) ∧
    adjustEmail (("@gmail.com").toList) = none := by
  decide

/-- C8 amended: `adjustEmail` is idempotent on every input on which it returns
a value, except when the input has a recognized free-mail domain and a local
part that becomes empty after removing dots and the `+suffix`; under the
assumption that the cleaned local part is nonempty, applying `adjustEmail` to
its own result returns that result. -/
theorem adjustEmail_idempotent_on_nonempty_clean (e v l d : List Char)
    (hp : parseEmail e = some (l, d))
    (hv : adjustEmail e = some v)
    (hg : (d == gmailL || d == googlemailL) = true → gmailClean l ≠ []) :
    adjustEmail v = some v :=
  adjustEmail_idempotent_amended e v l d hp hv hg

/-- C8 amended witness: the canonical form of `a.b+c@gmail.com` is
`ab@gmail.com`, which `adjustEmail` maps to itself. -/
theorem adjustEmail_idempotent_witness :
    adjustEmail (("ab@gmail.com").toList) = some (("ab@gmail.com").toList) :=
  adjustEmail_idempotent_on_nonempty_clean (("a.b+c@gmail.com").toList)
    (("ab@gmail.com").toList) (("a.b+c").toList) gmailL (by decide) (by decide)
    (fun _ => by decide)

/-- C9: two valid addresses with the same domain whose local parts agree after
removing dots and the `+suffix` canonicalize to the same value when the domain
is `gmail.com` or `googlemail.com`; on any other domain `adjustEmail` returns
each input unchanged, so distinct inputs remain distinct. -/
theorem adjustEmail_dot_plus_variants (e1 e2 l1 l2 d : List Char)
    (hp1 : parseEmail e1 = some (l1, d)) (hp2 : parseEmail e2 = some (l2, d))
    (hclean : gmailClean l1 = gmailClean l2) (hne : e1 ≠ e2) :
    ((d == gmailL || d == googlemailL) = true →
      adjustEmail e1 = adjustEmail e2) ∧
    ((d == gmailL || d == googlemailL) = false →
      adjustEmail e1 = some e1 ∧ adjustEmail e2 = some e2 ∧
      adjustEmail e1 ≠ adjustEmail e2) :=
  adjustEmail_variant_collapse e1 e2 l1 l2 d hp1 hp2 hclean hne

/-- C9 witness: `a.b+c@gmail.com` and `ab@gmail.com` differ only by dots and a
`+suffix` and canonicalize to the same value. -/
theorem adjustEmail_dot_plus_variants_witness :
    adjustEmail (("a.b+c@gmail.com").toList) =
      adjustEmail (("ab@gmail.com").toList) :=
  (adjustEmail_dot_plus_variants (("a.b+c@gmail.com").toList)
    (("ab@gmail.com").toList) (("a.b+c").toList) (("ab").toList) gmailL
    (by decide) (by decide) (by decide) (by decide)).1 (by decide)
